import Mathlib

/-!
A shallow embedding of the game-state core of `src/game.rs` (snake game for an
ST7789 display), together with proofs of its specified properties.

Modelling conventions:
* `u8`/`usize` quantities are `Nat`; the signed `i8`/`i16` arithmetic in
  `_add_with_wraparound` is `Int` arithmetic (the Rust casts `u8 → i16` and
  `i8 → i16` are lossless, and the final `as u8` cast is applied to a value in
  `[0, width)` with `width ≤ 255`, hence lossless as well).
* `heapless::Deque<Point, {W*H}>` is a `List Point` (front of the deque = head
  of the list) plus the explicit capacity check of `push_front`: a failing
  `unwrap` (panic) is modelled by the whole operation returning `none`.
* `heapless::FnvIndexMap<Point, Food, 8>` is an association list with unique
  keys; `insert` replaces the value of an existing key and otherwise appends,
  failing (`none`) when the map already holds 8 entries.
* `Cycle<Iter<Rgb565>>` is an index into the 2-entry palette, advanced mod 2.
* The `Direction` enum lives in `src/inputs.rs`, which is not part of the
  sources; its exact four variants `Up/Down/Left/Right` are forced by the
  exhaustive `match` in `game.rs`, and the joystick source
  (`GameInputs::get_joystick_direction`, returning an optional direction) is
  passed to `fastUpdate` as an explicit `Option Direction` argument.
* The `while` respawn loop of `Game::slow_update` is modelled with explicit
  fuel `num_food + 1`; each iteration that inserts a fresh key raises the food
  count by one, so this fuel is sufficient whenever the loop terminates (in
  the real game `num_food = 1` always, and the fuel is never exhausted).
-/

namespace SnakeGame

/-- The joystick direction enum from `src/inputs.rs` (variants forced by the
exhaustive `match` in `game.rs`). -/
inductive Direction
  | Up
  | Down
  | Left
  | Right
deriving DecidableEq

/-- A position on the screen, `struct Point { x: u8, y: u8 }`. -/
structure Point where
  x : Nat
  y : Nat
deriving DecidableEq

/-- A delta for a `Point`, `struct Vector { dx: i8, dy: i8 }`. -/
structure Vector where
  dx : Int
  dy : Int
deriving DecidableEq

/-- `Vector::opposite`: `Vector { dx: self.dx * -1, dy: self.dy * -1 }`. -/
def Vector.opposite (v : Vector) : Vector :=
  { dx := v.dx * -1, dy := v.dy * -1 }

/-- `impl Into<Vector> for Direction`. -/
def directionVector : Direction → Vector
  | .Up => { dx := 0, dy := -1 }
  | .Down => { dx := 0, dy := 1 }
  | .Left => { dx := -1, dy := 0 }
  | .Right => { dx := 1, dy := 0 }

/-- The two `Rgb565` palette colours used by `Food` (`WHITE`, `RED`). -/
inductive Colour
  | white
  | red
deriving DecidableEq

/-- `Food`: the colour-cycle iterator `Cycle<Iter<Rgb565>>` is modelled by the
index `idx` of the next palette entry it will yield, plus the stored
`next_colour` field. -/
structure Food where
  idx : Nat
  next_colour : Colour
deriving DecidableEq

/-- `Food::COLOURS = [WHITE, RED]`. -/
def Food.COLOURS : List Colour := [.white, .red]

/-- The palette entry yielded by the cycle iterator at position `i`. -/
def paletteColour (i : Nat) : Colour :=
  Food.COLOURS.getD (i % Food.COLOURS.length) .white

/-- `Food::new`: the fresh cycle yields `COLOURS[0]` and advances to index 1. -/
def Food.new : Food :=
  { idx := 1, next_colour := paletteColour 0 }

/-- `Food::update`: `self.next_colour = *self.colours.next().unwrap()`. -/
def Food.update (f : Food) : Food :=
  { idx := f.idx + 1, next_colour := paletteColour f.idx }

/-- `FnvIndexMap<Point, Food, 8>` as an association list with unique keys. -/
abbrev FoodMap := List (Point × Food)

/-- Map lookup: the value stored at key `k`, if any. -/
def findFood (m : FoodMap) (k : Point) : Option Food :=
  (m.find? (fun e => e.1 == k)).map (fun e => e.2)

/-- `FnvIndexMap::remove(&k)`: drop the (unique) entry with key `k`. -/
def removeFood (m : FoodMap) (k : Point) : FoodMap :=
  m.eraseP (fun e => e.1 == k)

/-- The food map's capacity (`FnvIndexMap<_, _, 8>`). -/
def FOOD_CAPACITY : Nat := 8

/-- `FnvIndexMap::insert(k, v)`: replace the value if `k` is present,
otherwise append the entry; fails (`unwrap` panic, modelled `none`) when the
map is full and `k` is absent. -/
def insertFood (m : FoodMap) (k : Point) (v : Food) : Option FoodMap :=
  if (m.find? (fun e => e.1 == k)).isSome then
    some (m.map (fun e => if e.1 == k then (k, v) else e))
  else if m.length < FOOD_CAPACITY then
    some (m ++ [(k, v)])
  else
    none

/-- The `for food in self.food.values_mut() { food.update() }` pass. -/
def FoodMap.animate (m : FoodMap) : FoodMap :=
  m.map (fun e => (e.1, e.2.update))

/-- `Snake`: the occupied vertices (list head = snake head), the vacated tail
cell, and the current direction. -/
structure Snake where
  points : List Point
  old_tail : Option Point
  direction : Direction
deriving DecidableEq

/-- `Snake::new(initial_point, initial_direction)`. -/
def Snake.new (p : Point) (d : Direction) : Snake :=
  { points := [p], old_tail := none, direction := d }

/-- `Snake::get_head` (`self.points.front().unwrap()`, panicking on an empty
body, modelled as an `Option`). -/
def Snake.get_head (s : Snake) : Option Point :=
  s.points.head?

/-- `Snake::_add_with_wraparound(point, delta)`: `i16` addition followed by
`rem_euclid` against the board dimensions (`Int.emod` agrees with
`rem_euclid` for the positive divisors used by the game). -/
def addWithWraparound (W H : Nat) (p : Point) (v : Vector) : Point :=
  { x := (Int.emod ((p.x : Int) + v.dx) (W : Int)).toNat,
    y := (Int.emod ((p.y : Int) + v.dy) (H : Int)).toNat }

/-- `Snake::update(food)`: move one cell in the current direction, consume any
food at the new head (in which case the tail is not popped and `old_tail` is
not assigned), and push the new head.  `push_front` onto a full deque
(capacity `W * H`) panics, modelled by `none`. -/
def Snake.update (W H : Nat) (s : Snake) (food : FoodMap) :
    Option (Snake × FoodMap) :=
  match s.points.head? with
  | none => some (s, food)
  | some old_head =>
    let new_head := addWithWraparound W H old_head (directionVector s.direction)
    let ate_food := (findFood food new_head).isSome
    let food2 := if ate_food then removeFood food new_head else food
    let points2 := if ate_food then s.points else s.points.dropLast
    let tail2 := if ate_food then s.old_tail else s.points.getLast?
    if points2.length < W * H then
      some ({ points := new_head :: points2, old_tail := tail2,
              direction := s.direction }, food2)
    else
      none

/-- The board width in cells, `GAME_WIDTH_PIXELS / PIXEL_WIDTH` from
`main.rs`. -/
def GAME_WIDTH : Nat := 240 / 10

/-- The board height in cells, `GAME_HEIGHT_PIXELS / PIXEL_WIDTH` from
`main.rs`. -/
def GAME_HEIGHT : Nat := 240 / 10

/-- The state owned by `Game` (the input peripheral is not part of the state
model; sampled directions are passed to `fastUpdate` explicitly). -/
structure GameState where
  snake : Snake
  food : FoodMap
  num_food : Nat
deriving DecidableEq

/-- `Game::new(inputs)`. -/
def Game.new (W H : Nat) : GameState :=
  { snake := Snake.new { x := W / 2, y := H / 2 } .Right,
    food := [],
    num_food := 1 }

/-- `Game::fast_update`, with the sampled joystick direction
(`self.inputs.get_joystick_direction()`) passed explicitly. -/
def fastUpdate (g : GameState) (input : Option Direction) : GameState :=
  match input with
  | none => g
  | some d =>
    if (directionVector d).opposite ≠ directionVector g.snake.direction then
      { g with snake := { g.snake with direction := d } }
    else
      g

/-- The `while self.food.len() < self.num_food` respawn loop of
`Game::slow_update`, with explicit fuel.  `none` models a panic (the
`get_head`/`insert` unwraps) or fuel exhaustion; fuel `num_food + 1` is
sufficient for every terminating run of the Rust loop. -/
def spawnFood (numFood : Nat) (s : Snake) : Nat → FoodMap → Option FoodMap
  | 0, m => if m.length < numFood then none else some m
  | fuel + 1, m =>
    if m.length < numFood then
      match s.get_head with
      | none => none
      | some hd =>
        if hd.y < 5 ∧ s.points.length < 5 then
          some m
        else
          match insertFood m { x := 12, y := 5 } Food.new with
          | none => none
          | some m2 => spawnFood numFood s fuel m2
    else
      some m

/-- `Game::slow_update`: move the snake, respawn food, animate food. -/
def slowUpdate (W H : Nat) (g : GameState) : Option GameState :=
  (Snake.update W H g.snake g.food).bind (fun r =>
    (spawnFood g.num_food r.1 (g.num_food + 1) r.2).bind (fun f2 =>
      some { snake := r.1, food := f2.animate, num_food := g.num_food }))

/-- The game states reachable from `Game::new` by any interleaving of fast and
slow updates (a superset of the strict alternation run by `main.rs`). -/
inductive Reachable (W H : Nat) : GameState → Prop
  | init : Reachable W H (Game.new W H)
  | fast (g : GameState) (inp : Option Direction) :
      Reachable W H g → Reachable W H (fastUpdate g inp)
  | slow (g g2 : GameState) :
      Reachable W H g → slowUpdate W H g = some g2 → Reachable W H g2


/-! ## Helper lemmas -/

lemma animate_length (m : FoodMap) : (FoodMap.animate m).length = m.length := by
  simp [FoodMap.animate]

lemma findFood_eq_none (m : FoodMap) (k : Point) (h : ∀ e ∈ m, e.1 ≠ k) :
    findFood m k = none := by
  unfold findFood
  rw [List.find?_eq_none.mpr]
  · rfl
  · intro e he
    simpa using h e he

lemma findFood_removeFood_self (m : FoodMap) (k : Point)
    (hnd : (m.map Prod.fst).Nodup) : findFood (removeFood m k) k = none := by
  induction m with
  | nil => rfl
  | cons a t ih =>
    rw [List.map_cons, List.nodup_cons] at hnd
    by_cases hak : a.1 = k
    · have hrm : removeFood (a :: t) k = t := by
        simp [removeFood, List.eraseP_cons, hak]
      rw [hrm]
      apply findFood_eq_none
      intro e he hek
      exact hnd.1 (List.mem_map.mpr ⟨e, he, by rw [hek, hak]⟩)
    · have hrm : removeFood (a :: t) k = a :: removeFood t k := by
        simp [removeFood, List.eraseP_cons, hak]
      rw [hrm]
      unfold findFood
      rw [List.find?_cons_of_neg _ (by simp [hak])]
      exact ih hnd.2

lemma length_removeFood (m : FoodMap) (k : Point) (fd : Food)
    (hf : findFood m k = some fd) : (removeFood m k).length + 1 = m.length := by
  unfold findFood at hf
  obtain ⟨e, he⟩ : ∃ e, m.find? (fun e => e.1 == k) = some e := by
    cases h : m.find? (fun e => e.1 == k) with
    | none => rw [h] at hf; simp at hf
    | some e => exact ⟨e, rfl⟩
  have hmem : e ∈ m := List.mem_of_find?_eq_some he
  have hp := List.find?_some he
  unfold removeFood
  exact List.length_eraseP_add_one hmem hp

lemma length_removeFood_le (m : FoodMap) (k : Point) :
    (removeFood m k).length ≤ m.length :=
  (List.eraseP_sublist m).length_le

lemma insertFood_length (m : FoodMap) (k : Point) (v : Food) (m2 : FoodMap)
    (h : insertFood m k v = some m2) : m2.length ≤ m.length + 1 := by
  unfold insertFood at h
  split at h
  · obtain rfl : m.map (fun e => if e.1 == k then (k, v) else e) = m2 := by
      simpa using h
    simp
  · split at h
    · obtain rfl : m ++ [(k, v)] = m2 := by simpa using h
      simp
    · simp at h

/-- Characterisation of `Snake::update` on a consuming move below capacity. -/
lemma update_eat_eq (W H : Nat) (s : Snake) (food : FoodMap) (hd nh : Point)
    (tl : List Point) (fd : Food)
    (hps : s.points = hd :: tl)
    (hnh : nh = addWithWraparound W H hd (directionVector s.direction))
    (hf : findFood food nh = some fd)
    (hcap : s.points.length < W * H) :
    Snake.update W H s food =
      some ({ points := nh :: s.points, old_tail := s.old_tail,
              direction := s.direction }, removeFood food nh) := by
  subst hnh
  unfold Snake.update
  rw [hps] at hcap ⊢
  simp only [List.head?_cons]
  rw [hf]
  have hcap2 : tl.length + 1 < W * H := by simpa using hcap
  simp [hcap2]

/-- Characterisation of `Snake::update` on a non-consuming move. -/
lemma update_noeat_eq (W H : Nat) (s : Snake) (food : FoodMap) (hd nh : Point)
    (tl : List Point)
    (hps : s.points = hd :: tl)
    (hnh : nh = addWithWraparound W H hd (directionVector s.direction))
    (hf : findFood food nh = none)
    (hcap : tl.length < W * H) :
    Snake.update W H s food =
      some ({ points := nh :: (hd :: tl).dropLast,
              old_tail := (hd :: tl).getLast?,
              direction := s.direction }, food) := by
  subst hnh
  unfold Snake.update
  rw [hps]
  simp only [List.head?_cons]
  rw [hf]
  have hlen : (hd :: tl).dropLast.length < W * H := by
    simp [List.length_dropLast]; omega
  simp [hlen, List.length_dropLast, hcap]


/-- Characterisation of `Snake::update` on an empty body (defensive no-op). -/
lemma update_empty_eq (W H : Nat) (s : Snake) (food : FoodMap)
    (hps : s.points = []) : Snake.update W H s food = some (s, food) := by
  unfold Snake.update
  rw [hps]
  rfl

lemma update_food_le (W H : Nat) (s : Snake) (food : FoodMap) (s2 : Snake)
    (f2 : FoodMap) (h : Snake.update W H s food = some (s2, f2)) :
    f2.length ≤ food.length := by
  unfold Snake.update at h
  rcases hh : s.points.head? with _ | hd <;> rw [hh] at h
  · have hfe : food = f2 := congrArg Prod.snd (Option.some.inj h)
    rw [← hfe]
  · simp only at h
    cases hate : (findFood food
        (addWithWraparound W H hd (directionVector s.direction))).isSome <;>
      simp only [hate] at h <;> simp at h
    · rw [← h.2.2]
    · rw [← h.2.2]
      exact length_removeFood_le food _

lemma update_points_sub (W H : Nat) (s : Snake) (food : FoodMap) (s2 : Snake)
    (f2 : FoodMap) (h : Snake.update W H s food = some (s2, f2)) :
    ∀ p ∈ s2.points,
      (∃ hd, s.points.head? = some hd ∧
        p = addWithWraparound W H hd (directionVector s.direction)) ∨
      p ∈ s.points := by
  unfold Snake.update at h
  rcases hh : s.points.head? with _ | hd <;> rw [hh] at h
  · have hse : s = s2 := congrArg Prod.fst (Option.some.inj h)
    intro p hp
    rw [← hse] at hp
    exact Or.inr hp
  · simp only at h
    cases hate : (findFood food
        (addWithWraparound W H hd (directionVector s.direction))).isSome <;>
      simp only [hate] at h <;> simp at h
    · intro p hp
      rw [← h.2.1] at hp
      rcases List.mem_cons.mp hp with hnh | hmem
      · exact Or.inl ⟨hd, rfl, hnh⟩
      · exact Or.inr (List.dropLast_subset _ hmem)
    · intro p hp
      rw [← h.2.1] at hp
      rcases List.mem_cons.mp hp with hnh | hmem
      · exact Or.inl ⟨hd, rfl, hnh⟩
      · exact Or.inr hmem

lemma spawnFood_le (n : Nat) (s : Snake) :
    ∀ (fuel : Nat) (m m2 : FoodMap), m.length ≤ n →
      spawnFood n s fuel m = some m2 → m2.length ≤ n := by
  intro fuel
  induction fuel with
  | zero =>
    intro m m2 hm h
    unfold spawnFood at h
    split at h
    · exact False.elim (Option.noConfusion h)
    · rw [← Option.some.inj h]
      exact hm
  | succ k ih =>
    intro m m2 hm h
    unfold spawnFood at h
    split at h
    · rename_i hlt
      rcases hgh : s.get_head with _ | hd <;> rw [hgh] at h <;> dsimp only at h
      · exact False.elim (Option.noConfusion h)
      · split at h
        · rw [← Option.some.inj h]
          exact hm
        · rcases hins : insertFood m { x := 12, y := 5 } Food.new with _ | m3 <;>
            rw [hins] at h <;> dsimp only at h
          · exact False.elim (Option.noConfusion h)
          · have hm3 : m3.length ≤ n := by
              have := insertFood_length m _ _ m3 hins
              omega
            exact ih m3 m2 hm3 h
    · rw [← Option.some.inj h]
      exact hm

lemma slowUpdate_bind (W H : Nat) (g g2 : GameState)
    (h : slowUpdate W H g = some g2) :
    ∃ s2 f1 f2, Snake.update W H g.snake g.food = some (s2, f1) ∧
      spawnFood g.num_food s2 (g.num_food + 1) f1 = some f2 ∧
      g2 = { snake := s2, food := f2.animate, num_food := g.num_food } := by
  unfold slowUpdate at h
  rcases hu : Snake.update W H g.snake g.food with _ | ⟨s2, f1⟩ <;> rw [hu] at h
  · rw [Option.none_bind] at h
    exact False.elim (Option.noConfusion h)
  · rw [Option.some_bind] at h
    rcases hsp : spawnFood g.num_food s2 (g.num_food + 1) f1 with _ | f2 <;>
      rw [hsp] at h
    · rw [Option.none_bind] at h
      exact False.elim (Option.noConfusion h)
    · rw [Option.some_bind] at h
      exact ⟨s2, f1, f2, rfl, hsp, (Option.some.inj h).symm⟩

lemma slow_food_bound (W H : Nat) (g g2 : GameState)
    (h : slowUpdate W H g = some g2) (hinv : g.food.length ≤ g.num_food) :
    g2.food.length ≤ g2.num_food ∧ g2.num_food = g.num_food := by
  obtain ⟨s2, f1, f2, hu, hsp, hg2⟩ := slowUpdate_bind W H g g2 h
  have h1 : f1.length ≤ g.num_food :=
    le_trans (update_food_le W H g.snake g.food s2 f1 hu) hinv
  have h2 : f2.length ≤ g.num_food := spawnFood_le _ _ _ _ _ h1 hsp
  subst hg2
  exact ⟨by simpa [animate_length] using h2, rfl⟩

lemma fastUpdate_frame (g : GameState) (inp : Option Direction) :
    (fastUpdate g inp).food = g.food ∧ (fastUpdate g inp).num_food = g.num_food ∧
    (fastUpdate g inp).snake.points = g.snake.points := by
  cases inp with
  | none => exact ⟨rfl, rfl, rfl⟩
  | some d =>
    by_cases hc : (directionVector d).opposite ≠ directionVector g.snake.direction <;>
      simp [fastUpdate, hc]

lemma reachable_food_inv (W H : Nat) (g : GameState) (hr : Reachable W H g) :
    g.num_food = 1 ∧ g.food.length ≤ g.num_food := by
  induction hr with
  | init => exact ⟨rfl, by simp [Game.new]⟩
  | fast g inp hr ih =>
    obtain ⟨hf, hn, _⟩ := fastUpdate_frame g inp
    exact ⟨by rw [hn, ih.1], by rw [hf, hn]; exact ih.2⟩
  | slow g g2 hr hs ih =>
    have h := slow_food_bound W H g g2 hs ih.2
    exact ⟨by rw [h.2, ih.1], h.1⟩

lemma addWithWraparound_lt (W H : Nat) (hW : 0 < W) (hH : 0 < H) (p : Point)
    (v : Vector) :
    (addWithWraparound W H p v).x < W ∧ (addWithWraparound W H p v).y < H := by
  unfold addWithWraparound
  refine ⟨?_, ?_⟩ <;> dsimp only
  · have h1 : 0 ≤ Int.emod ((p.x : Int) + v.dx) (W : Int) :=
      Int.emod_nonneg _ (by exact_mod_cast hW.ne')
    have h2 : Int.emod ((p.x : Int) + v.dx) (W : Int) < (W : Int) :=
      Int.emod_lt_of_pos _ (by exact_mod_cast hW)
    omega
  · have h1 : 0 ≤ Int.emod ((p.y : Int) + v.dy) (H : Int) :=
      Int.emod_nonneg _ (by exact_mod_cast hH.ne')
    have h2 : Int.emod ((p.y : Int) + v.dy) (H : Int) < (H : Int) :=
      Int.emod_lt_of_pos _ (by exact_mod_cast hH)
    omega

lemma reachable_in_bounds (W H : Nat) (hW : 0 < W) (hH : 0 < H) (g : GameState)
    (hr : Reachable W H g) : ∀ p ∈ g.snake.points, p.x < W ∧ p.y < H := by
  induction hr with
  | init =>
    intro p hp
    simp only [Game.new, Snake.new, List.mem_singleton] at hp
    subst hp
    exact ⟨Nat.div_lt_self hW one_lt_two, Nat.div_lt_self hH one_lt_two⟩
  | fast g inp hr ih =>
    intro p hp
    exact ih p (by rwa [(fastUpdate_frame g inp).2.2] at hp)
  | slow g g2 hr hs ih =>
    intro p hp
    obtain ⟨s2, f1, f2, hu, hsp, hg2⟩ := slowUpdate_bind W H g g2 hs
    subst hg2
    rcases update_points_sub W H g.snake g.food s2 f1 hu p hp with ⟨hd, _, rfl⟩ | hmem
    · exact addWithWraparound_lt W H hW hH hd _
    · exact ih p hmem

lemma food_iterate (n : Nat) :
    Food.update^[n] Food.new = { idx := n + 1, next_colour := paletteColour n } := by
  induction n with
  | zero => rfl
  | succ k ih => rw [Function.iterate_succ_apply', ih]; rfl

lemma paletteColour_add_two (n : Nat) :
    paletteColour (n + 2) = paletteColour n := by
  unfold paletteColour
  have hlen : Food.COLOURS.length = 2 := rfl
  rw [hlen, Nat.add_mod_right]

/-! ## Claim theorems -/

/-- C3: for every in-bounds point and each of the four directions, the new
head position is computed componentwise as the Euclidean (always-nonnegative)
remainder `(x+dx) mod width`, `(y+dy) mod height` of the point plus the
direction's unit vector; in particular on a 24x24 board moving Left from
(0,5) yields (23,5) and moving Up from (5,0) yields (5,23). -/
theorem wraparound_spec (W H : Nat) (p : Point) (d : Direction)
    (hx : p.x < W) (hy : p.y < H) :
    (((addWithWraparound W H p (directionVector d)).x : Int) =
        Int.emod ((p.x : Int) + (directionVector d).dx) (W : Int) ∧
      ((addWithWraparound W H p (directionVector d)).y : Int) =
        Int.emod ((p.y : Int) + (directionVector d).dy) (H : Int)) ∧
    addWithWraparound 24 24 { x := 0, y := 5 } (directionVector .Left) =
      { x := 23, y := 5 } ∧
    addWithWraparound 24 24 { x := 5, y := 0 } (directionVector .Up) =
      { x := 5, y := 23 } := by
  have hW : 0 < W := lt_of_le_of_lt (Nat.zero_le _) hx
  have hH : 0 < H := lt_of_le_of_lt (Nat.zero_le _) hy
  refine ⟨⟨?_, ?_⟩, by decide, by decide⟩
  · exact Int.toNat_of_nonneg (Int.emod_nonneg _ (by exact_mod_cast hW.ne'))
  · exact Int.toNat_of_nonneg (Int.emod_nonneg _ (by exact_mod_cast hH.ne'))

/-- Witness for C3 at the concrete input (0,5) moving Left on a 24x24 board. -/
theorem wraparound_spec_witness :
    (((addWithWraparound 24 24 { x := 0, y := 5 } (directionVector .Left)).x : Int) =
        Int.emod (((0 : Nat) : Int) + (directionVector Direction.Left).dx) ((24 : Nat) : Int) ∧
      ((addWithWraparound 24 24 { x := 0, y := 5 } (directionVector .Left)).y : Int) =
        Int.emod (((5 : Nat) : Int) + (directionVector Direction.Left).dy) ((24 : Nat) : Int)) ∧
    addWithWraparound 24 24 { x := 0, y := 5 } (directionVector .Left) =
      { x := 23, y := 5 } ∧
    addWithWraparound 24 24 { x := 5, y := 0 } (directionVector .Up) =
      { x := 5, y := 23 } :=
  wraparound_spec 24 24 { x := 0, y := 5 } Direction.Left (by decide) (by decide)

/-- C8: calling `Snake::update` on a snake whose body is empty is a defensive
no-op: it returns without faulting and leaves the snake and food map
unchanged. -/
theorem empty_body_noop (W H : Nat) (s : Snake) (food : FoodMap)
    (h : s.points = []) : Snake.update W H s food = some (s, food) :=
  update_empty_eq W H s food h

/-- Witness for C8 on a concrete empty-bodied snake. -/
theorem empty_body_noop_witness :
    Snake.update 24 24 { points := [], old_tail := none, direction := .Up } [] =
      some ({ points := [], old_tail := none, direction := .Up }, []) :=
  empty_body_noop 24 24 { points := [], old_tail := none, direction := .Up } [] rfl

/-- C9: a fresh `Food`'s current colour is white; after one advance it is red;
after two it is white again, and in general advancing the cursor twice
restores the current colour of any `Food` the program can construct (every
such `Food` is `Food.update^[n] Food.new` for some `n`). -/
theorem food_colour_cycle :
    Food.new.next_colour = Colour.white ∧
    (Food.update Food.new).next_colour = Colour.red ∧
    (Food.update (Food.update Food.new)).next_colour = Colour.white ∧
    ∀ n : Nat, (Food.update^[n + 2] Food.new).next_colour =
      (Food.update^[n] Food.new).next_colour := by
  refine ⟨rfl, rfl, rfl, fun n => ?_⟩
  rw [food_iterate, food_iterate]
  exact paletteColour_add_two n

/-- C4: `fast_update` sets the snake's direction to the sampled direction iff
that direction's vector is not the exact opposite of the current direction's
vector; a missing sample or an opposite sample leaves the state unchanged; in
particular with current heading Right, Left is ignored while Up and Down are
accepted. -/
theorem reversal_guard (g : GameState) (d : Direction) :
    ((fastUpdate g (some d)).snake.direction = d ↔
      (directionVector d).opposite ≠ directionVector g.snake.direction) ∧
    fastUpdate g none = g ∧
    ((directionVector d).opposite = directionVector g.snake.direction →
      fastUpdate g (some d) = g) ∧
    (g.snake.direction = .Right →
      (fastUpdate g (some .Left)).snake.direction = .Right ∧
      (fastUpdate g (some .Up)).snake.direction = .Up ∧
      (fastUpdate g (some .Down)).snake.direction = .Down) := by
  cases d <;> cases hcur : g.snake.direction <;>
    simp [fastUpdate, directionVector, Vector.opposite, hcur]

/-- Witness for C4: from the initial game (heading Right), Left is ignored
and Up is accepted. -/
theorem reversal_guard_witness :
    (fastUpdate (Game.new 24 24) (some .Left)).snake.direction = .Right ∧
    (fastUpdate (Game.new 24 24) (some .Up)).snake.direction = .Up :=
  ⟨((reversal_guard (Game.new 24 24) .Left).2.2.2 rfl).1,
   ((reversal_guard (Game.new 24 24) .Up).2.2.2 rfl).2.1⟩

/-- A snake occupying `GAME_WIDTH * GAME_HEIGHT` cells: the deque backing the
body (`heapless::Deque<Point, { W * H }>`) is exactly full. -/
def fullCapacitySnake : Snake :=
  { points := List.replicate (24 * 24) { x := 12, y := 4 },
    old_tail := none,
    direction := .Down }

/-- A food map holding one entry at the cell one step ahead of
`fullCapacitySnake`'s head. -/
def capacityFood : FoodMap := [(({ x := 12, y := 5 } : Point), Food.new)]

set_option maxRecDepth 40000 in
/-- Counterexample to C1 as stated: for a snake whose body already fills the
deque capacity `GAME_WIDTH * GAME_HEIGHT = 576`, a move onto a food cell does
not produce a snake of length L+1 — `push_front` fails and the `unwrap`
panics (modelled by `none`), even though the body is non-empty and the food
map contains the cell one step ahead of the head. -/
theorem growth_at_capacity_panics :
    Snake.update 24 24 fullCapacitySnake capacityFood = none ∧
    findFood capacityFood
      (addWithWraparound 24 24 { x := 12, y := 4 } (directionVector .Down)) =
      some Food.new ∧
    fullCapacitySnake.points.length = 24 * 24 ∧
    fullCapacitySnake.points ≠ [] := by
  refine ⟨by decide, by decide, by decide, by decide⟩

/-- C1 (amended): for every snake with non-empty body of length L strictly
below the deque capacity `W * H`, and every food map (with the maps' unique
keys) containing the cell one step ahead of the head in the current
direction, one `Snake::update` removes that entry from the food map,
increases the body length to L+1, and leaves `old_tail` unchanged.  (At
L = W * H the push of the new head panics instead, see
`growth_at_capacity_panics`.) -/
theorem growth_on_consumption (W H : Nat) (s : Snake) (food : FoodMap)
    (hd nh : Point) (tl : List Point) (fd : Food)
    (hps : s.points = hd :: tl)
    (hnh : nh = addWithWraparound W H hd (directionVector s.direction))
    (hnd : (food.map Prod.fst).Nodup)
    (hf : findFood food nh = some fd)
    (hcap : s.points.length < W * H) :
    Snake.update W H s food =
      some ({ points := nh :: s.points, old_tail := s.old_tail,
              direction := s.direction }, removeFood food nh) ∧
    (nh :: s.points).length = s.points.length + 1 ∧
    findFood (removeFood food nh) nh = none ∧
    (removeFood food nh).length + 1 = food.length := by
  refine ⟨update_eat_eq W H s food hd nh tl fd hps hnh hf hcap, by simp, ?_, ?_⟩
  · exact findFood_removeFood_self food nh hnd
  · exact length_removeFood food nh fd hf

/-- Witness for C1 (amended): a length-1 snake at (2,2) heading Right with
food at (3,2) grows to length 2, the entry is removed, `old_tail` keeps its
prior value `none`. -/
theorem growth_on_consumption_witness :
    Snake.update 24 24
        { points := [{ x := 2, y := 2 }], old_tail := none, direction := .Right }
        [({ x := 3, y := 2 }, Food.new)] =
      some ({ points := [{ x := 3, y := 2 }, { x := 2, y := 2 }],
              old_tail := none, direction := .Right }, []) ∧
    ([{ x := 3, y := 2 }, { x := 2, y := 2 }] : List Point).length = 1 + 1 ∧
    findFood (removeFood [({ x := 3, y := 2 }, Food.new)] { x := 3, y := 2 })
      { x := 3, y := 2 } = none ∧
    (removeFood [({ x := 3, y := 2 }, Food.new)] { x := 3, y := 2 }).length + 1 = 1 :=
  growth_on_consumption 24 24
    { points := [{ x := 2, y := 2 }], old_tail := none, direction := .Right }
    [({ x := 3, y := 2 }, Food.new)]
    { x := 2, y := 2 } { x := 3, y := 2 } [] Food.new
    rfl (by decide) (by decide) (by decide) (by decide)

/-- C2: for every snake with non-empty body whose next head cell is not a key
of the food map, one `Snake::update` keeps the body length constant, leaves
the food map unchanged, and sets `old_tail` to the cell that was the last
body element before the move. -/
theorem no_growth_without_consumption (W H : Nat) (s : Snake) (food : FoodMap)
    (hd nh : Point) (tl : List Point)
    (hps : s.points = hd :: tl)
    (hnh : nh = addWithWraparound W H hd (directionVector s.direction))
    (hf : findFood food nh = none)
    (hcap : s.points.length ≤ W * H) :
    Snake.update W H s food =
      some ({ points := nh :: s.points.dropLast,
              old_tail := s.points.getLast?,
              direction := s.direction }, food) ∧
    (nh :: s.points.dropLast).length = s.points.length ∧
    (s.points.getLast?).isSome = true := by
  have hcap2 : tl.length < W * H := by
    rw [hps] at hcap
    simp only [List.length_cons] at hcap
    omega
  refine ⟨?_, ?_, ?_⟩
  · rw [hps]
    exact update_noeat_eq W H s food hd nh tl hps hnh hf hcap2
  · rw [hps]
    simp [List.length_dropLast]
  · rw [hps]
    simp

/-- Witness for C2: the initial snake at (12,12) heading Right moves to
(13,12) over an empty food map; length stays 1 and `old_tail` becomes the
vacated cell (12,12). -/
theorem no_growth_without_consumption_witness :
    Snake.update 24 24
        { points := [{ x := 12, y := 12 }], old_tail := none, direction := .Right }
        [] =
      some ({ points := [{ x := 13, y := 12 }],
              old_tail := some { x := 12, y := 12 },
              direction := .Right }, []) ∧
    ([{ x := 13, y := 12 }] : List Point).length = 1 ∧
    (([{ x := 12, y := 12 }] : List Point).getLast?).isSome = true :=
  no_growth_without_consumption 24 24
    { points := [{ x := 12, y := 12 }], old_tail := none, direction := .Right }
    [] { x := 12, y := 12 } { x := 13, y := 12 } []
    rfl (by decide) rfl (by decide)

/-- A snake about to consume food, whose `old_tail` holds a stale value
(9,9) from an earlier tick — a cell that is not on the body, so no assignment
inside the upcoming `update` call could produce it. -/
def staleTailSnake : Snake :=
  { points := [{ x := 2, y := 2 }], old_tail := some { x := 9, y := 9 },
    direction := .Right }

/-- The food map for the `staleTailSnake` step: one entry one step ahead of
the head. -/
def staleTailFood : FoodMap := [({ x := 3, y := 2 }, Food.new)]

/-- Counterexample to C7 as stated: on a consuming move the `old_tail` field
is neither cleared nor overwritten — after the call it still holds the stale
prior value (9,9), which is not `none` and not the only value this call could
have written (the popped tail (2,2); nothing was popped). -/
theorem old_tail_stale_on_consumption :
    (Snake.update 24 24 staleTailSnake staleTailFood).map
        (fun r => r.1.old_tail) = some staleTailSnake.old_tail ∧
    staleTailSnake.old_tail = some { x := 9, y := 9 } ∧
    ({ x := 9, y := 9 } : Point) ∉ staleTailSnake.points ∧
    (findFood staleTailFood
      (addWithWraparound 24 24 { x := 2, y := 2 } (directionVector .Right))).isSome
      = true := by
  refine ⟨by decide, by decide, by decide, by decide⟩

/-- C7 (amended): on every non-consuming move with non-empty body, `old_tail`
is overwritten with the popped last body element; on a consuming move it is
left unchanged (it is not assigned at all). -/
theorem old_tail_write_rule (W H : Nat) (s : Snake) (food : FoodMap)
    (hd nh : Point) (tl : List Point)
    (hps : s.points = hd :: tl)
    (hnh : nh = addWithWraparound W H hd (directionVector s.direction))
    (hcap : s.points.length < W * H) :
    ((findFood food nh).isSome = false →
      (Snake.update W H s food).map (fun r => r.1.old_tail) =
        some s.points.getLast?) ∧
    ((findFood food nh).isSome = true →
      (Snake.update W H s food).map (fun r => r.1.old_tail) =
        some s.old_tail) := by
  constructor
  · intro hno
    have hf : findFood food nh = none := Option.not_isSome_iff_eq_none.mp (by
      rw [hno]
      exact Bool.false_ne_true)
    have hcap2 : tl.length < W * H := by
      rw [hps] at hcap
      simp only [List.length_cons] at hcap
      omega
    rw [update_noeat_eq W H s food hd nh tl hps hnh hf hcap2]
    rw [hps]
    rfl
  · intro hyes
    obtain ⟨fd, hf⟩ := Option.isSome_iff_exists.mp hyes
    rw [update_eat_eq W H s food hd nh tl fd hps hnh hf hcap]
    rfl

/-- Witness for C7 (amended), at a concrete non-consuming move: the initial
snake at (12,12) heading Right over an empty food map gets
`old_tail = some (12,12)`. -/
theorem old_tail_write_rule_witness :
    ((findFood [] { x := 13, y := 12 }).isSome = false →
      (Snake.update 24 24
          { points := [{ x := 12, y := 12 }], old_tail := none,
            direction := .Right } []).map (fun r => r.1.old_tail) =
        some ([{ x := 12, y := 12 }] : List Point).getLast?) ∧
    ((findFood [] { x := 13, y := 12 }).isSome = true →
      (Snake.update 24 24
          { points := [{ x := 12, y := 12 }], old_tail := none,
            direction := .Right } []).map (fun r => r.1.old_tail) =
        some none) :=
  old_tail_write_rule 24 24
    { points := [{ x := 12, y := 12 }], old_tail := none, direction := .Right }
    [] { x := 12, y := 12 } { x := 13, y := 12 } []
    rfl (by decide) (by decide)

/-- C5: in any game state with the constructed target `num_food = 1` in which,
after the snake's move, the live food count is below `num_food`:
`slow_update` inserts no food entry when the post-move head has y-coordinate
below 5 and the body length is below 5; otherwise it inserts food entries
keyed at the fixed point (12,5) with a fresh animation cursor until the live
food count reaches `num_food`.  (The per-tick colour animation then advances
every live entry, including a freshly inserted one.) -/
theorem spawn_guard_spec (W H : Nat) (g : GameState) (s2 : Snake)
    (f1 : FoodMap) (hd : Point)
    (hn : g.num_food = 1)
    (hu : Snake.update W H g.snake g.food = some (s2, f1))
    (hhead : s2.get_head = some hd)
    (hlow : f1.length < g.num_food) :
    (hd.y < 5 ∧ s2.points.length < 5 →
      slowUpdate W H g =
        some ({ snake := s2, food := f1.animate,
                num_food := g.num_food } : GameState) ∧
      (FoodMap.animate f1).length = f1.length) ∧
    (¬(hd.y < 5 ∧ s2.points.length < 5) →
      slowUpdate W H g =
        some ({ snake := s2,
                food := FoodMap.animate
                  (f1 ++ [(({ x := 12, y := 5 } : Point), Food.new)]),
                num_food := g.num_food } : GameState) ∧
      (f1 ++ [(({ x := 12, y := 5 } : Point), Food.new)]).length = g.num_food ∧
      findFood (f1 ++ [(({ x := 12, y := 5 } : Point), Food.new)]) { x := 12, y := 5 } =
        some Food.new) := by
  have hf1 : f1 = [] := by
    rw [hn] at hlow
    exact List.length_eq_zero.mp (by omega)
  subst hf1
  have hslow : ∀ f2, spawnFood g.num_food s2 (g.num_food + 1) [] = some f2 →
      slowUpdate W H g =
        some ({ snake := s2, food := f2.animate,
                num_food := g.num_food } : GameState) := by
    intro f2 hsp
    unfold slowUpdate
    rw [hu, Option.some_bind, hsp, Option.some_bind]
  constructor
  · intro hguard
    have hsp : spawnFood g.num_food s2 (g.num_food + 1) [] = some [] := by
      rw [hn]
      simp [spawnFood, hhead, hguard]
    exact ⟨hslow [] hsp, rfl⟩
  · intro hguard
    have hins : insertFood [] { x := 12, y := 5 } Food.new =
        some [(({ x := 12, y := 5 } : Point), Food.new)] := by decide
    have hsp : spawnFood g.num_food s2 (g.num_food + 1) [] =
        some [(({ x := 12, y := 5 } : Point), Food.new)] := by
      rw [hn]
      simp [spawnFood, hhead, hguard, hins]
    refine ⟨by simpa using hslow [(({ x := 12, y := 5 } : Point), Food.new)] hsp,
      by simp [hn], by decide⟩

/-- Witness for C5 on the initial game: the post-move head (13,12) is not in
the top five rows, so one `slow_update` from `Game::new` inserts exactly one
food entry at (12,5), reaching the target count 1. -/
theorem spawn_guard_spec_witness :
    (((12 : Nat) < 5 ∧ ([{ x := 13, y := 12 }] : List Point).length < 5 →
      slowUpdate 24 24 (Game.new 24 24) =
        some ({ snake := { points := [{ x := 13, y := 12 }],
                           old_tail := some { x := 12, y := 12 },
                           direction := .Right },
                food := FoodMap.animate [], num_food := 1 } : GameState) ∧
      (FoodMap.animate ([] : FoodMap)).length = ([] : FoodMap).length)) ∧
    (¬((12 : Nat) < 5 ∧ ([{ x := 13, y := 12 }] : List Point).length < 5) →
      slowUpdate 24 24 (Game.new 24 24) =
        some ({ snake := { points := [{ x := 13, y := 12 }],
                           old_tail := some { x := 12, y := 12 },
                           direction := .Right },
                food := FoodMap.animate (([] : FoodMap) ++
                  [(({ x := 12, y := 5 } : Point), Food.new)]),
                num_food := 1 } : GameState) ∧
      (([] : FoodMap) ++ [(({ x := 12, y := 5 } : Point), Food.new)]).length = 1 ∧
      findFood (([] : FoodMap) ++ [(({ x := 12, y := 5 } : Point), Food.new)])
        { x := 12, y := 5 } = some Food.new) :=
  spawn_guard_spec 24 24 (Game.new 24 24)
    ({ points := [{ x := 13, y := 12 }], old_tail := some { x := 12, y := 12 },
       direction := .Right } : Snake)
    [] ({ x := 13, y := 12 } : Point)
    rfl (by decide) rfl (by decide)

/-- The state one `slow_update` after `Game::new` on the 24x24 board. -/
def slowStepState : GameState :=
  { snake := { points := [{ x := 13, y := 12 }],
               old_tail := some { x := 12, y := 12 },
               direction := .Right },
    food := [({ x := 12, y := 5 }, { idx := 2, next_colour := Colour.red })],
    num_food := 1 }

/-- C6: from any state reachable from `Game::new` by fast and slow updates,
at the end of every (non-panicking) `slow_update` the number of live food
entries is at most `num_food`, which is fixed at 1 at construction. -/
theorem food_count_invariant (W H : Nat) (g g2 : GameState)
    (hr : Reachable W H g) (hs : slowUpdate W H g = some g2) :
    g2.food.length ≤ g2.num_food ∧ g2.num_food = 1 := by
  have hinv := reachable_food_inv W H g hr
  have h := slow_food_bound W H g g2 hs hinv.2
  exact ⟨h.1, h.2.trans hinv.1⟩

/-- Witness for C6: one `slow_update` from the initial game yields one live
food entry, within the target count 1. -/
theorem food_count_invariant_witness :
    slowStepState.food.length ≤ slowStepState.num_food ∧
    slowStepState.num_food = 1 :=
  food_count_invariant 24 24 (Game.new 24 24) slowStepState
    Reachable.init (by decide)

/-- C10: in every state reachable from `Game::new` by fast and slow updates,
every point of the snake's body — and hence the result of `get_head` — lies
within the board: `x < GAME_WIDTH` and `y < GAME_HEIGHT` (the coordinates are
naturals, so `0 ≤ x, y` holds by typing). -/
theorem body_in_bounds (g : GameState)
    (hr : Reachable GAME_WIDTH GAME_HEIGHT g) :
    (∀ p ∈ g.snake.points, p.x < GAME_WIDTH ∧ p.y < GAME_HEIGHT) ∧
    (∀ p, g.snake.get_head = some p → p.x < GAME_WIDTH ∧ p.y < GAME_HEIGHT) := by
  have h := reachable_in_bounds GAME_WIDTH GAME_HEIGHT (by decide) (by decide) g hr
  refine ⟨h, fun p hp => h p ?_⟩
  unfold Snake.get_head at hp
  exact List.mem_of_mem_head? (by simpa using hp)

/-- Witness for C10: the initial snake's single body cell (12,12) is in
bounds. -/
theorem body_in_bounds_witness :
    ({ x := 12, y := 12 } : Point).x < GAME_WIDTH ∧
    ({ x := 12, y := 12 } : Point).y < GAME_HEIGHT :=
  (body_in_bounds (Game.new GAME_WIDTH GAME_HEIGHT) Reachable.init).1
    ({ x := 12, y := 12 } : Point) (by decide)

end SnakeGame
